import Mathlib

/-!
Verification development for the pull-request synchronization subsystem
(src/app/src/lib/stores/pull-request-store.ts).

The TypeScript store is embedded shallowly:
  * async database and network effects become explicit parameters
    (oracles) and explicit state passing;
  * thrown exceptions (including fatalError / forceUnwrap) become
    Except.error values;
  * the persistent pull-request table is modelled as a list of records
    for a single repository, keyed by pull-request number (the database
    module itself is not part of the surveyed sources; its operations
    are modelled from the spec, see the doc comments below);
  * log output is modelled as a list of strings / events.
-/

deriving instance DecidableEq for Except

/-- Remote repository descriptor as it appears in an API pull-request
payload (pr.head.repo / pr.base.repo). Its contents are only ever passed
to the repository resolver, so it is modelled as an opaque identifier. -/
structure APIRepo where
  ident : Nat
  deriving DecidableEq

/-- Author field of an API pull request (pr.user). -/
structure APIUser where
  login : String
  deriving DecidableEq

/-- Head or base part of an API pull request: branch ref, commit sha and
a nullable repository descriptor (null when the source fork was deleted). -/
structure APIRefPart where
  ref : String
  sha : String
  repo : Option APIRepo
  deriving DecidableEq

/-- An IAPIPullRequest as returned by the hosting API: number, title,
timestamps, author, head/base parts and a state string
(open / closed / merged). -/
structure IAPIPullRequest where
  number : Nat
  title : String
  created_at : String
  updated_at : String
  user : APIUser
  head : APIRefPart
  base : APIRefPart
  state : String
  deriving DecidableEq

/-- A GitHubRepository record as held by the repositories store: a
nullable database identifier plus descriptive fields. Only dbID,
endpoint and fullName are consulted by the pull-request store. -/
structure GitHubRepoRec where
  dbID : Option Nat
  endpoint : String
  fullName : String
  ownerLogin : String
  name : String
  deriving DecidableEq

/-- Head/base part of a persisted pull-request record: (ref, sha,
repository-id). The repository id is a foreign key into the repository
table; it is nullable in the persisted shape (getAll guards the head id
with a truthiness check before resolving it). -/
structure PRRefRecord where
  ref : String
  sha : String
  repoId : Option Nat
  deriving DecidableEq

/-- An IPullRequest: the persisted pull-request record shape written by
cachePullRequests and read back by getAll. -/
structure IPullRequest where
  number : Nat
  title : String
  createdAt : String
  updatedAt : String
  head : PRRefRecord
  base : PRRefRecord
  author : String
  deriving DecidableEq

/-- Modelled from the spec: the persistent pull-request cache for one
repository, "keyed by (repository, pull-request number)". Within the
single repository under consideration it is a list of records keyed by
number. -/
abbrev PRDatabase : Type := List IPullRequest

/-- Deep structural equality of two records (src/lib/equality's
structuralEquals). Modelled from the spec: a field-by-field equality
contract on the persisted-record type. -/
def structuralEquals {α : Type} [DecidableEq α] (x y : α) : Bool :=
  decide (x = y)

/-- Modelled from the spec: get-single-by-number on the persistent cache
(db.getPullRequest(repository, number)). -/
def getPullRequest (db : PRDatabase) (number : Nat) : Option IPullRequest :=
  List.find? (fun r => r.number == number) db

/-- Modelled from the spec: transactional batch delete on the persistent
cache (db.deletePullRequests): removes every record whose key (number)
appears in the given batch. -/
def deletePullRequests (db : PRDatabase) (prs : List IPullRequest) : PRDatabase :=
  List.filter (fun r => !(prs.any (fun p => p.number == r.number))) db

/-- Modelled from the spec: transactional batch upsert on the persistent
cache (db.putPullRequests): each record replaces any existing record of
the same key (number) or is appended. -/
def putPullRequests (db : PRDatabase) (prs : List IPullRequest) : PRDatabase :=
  prs.foldl (fun d p => List.filter (fun r => !(r.number == p.number)) d ++ [p]) db

/-- Diagnostic logged when a fetched pull request has no head repository
(pull-request-store.ts line 200). -/
def skipLogMsg (repository : GitHubRepoRec) (number : Nat) : String :=
  "Unable to store pull request #" ++ toString number ++ " for repository "
    ++ repository.fullName ++ " as it has no head repository associated with it"

/-- Console message printed before the cache commit
(pull-request-store.ts line 272). -/
def foundLogMsg (deleteCount upsertCount : Nat) : String :=
  "Found " ++ toString deleteCount ++ " PRs to delete and "
    ++ toString upsertCount ++ " to upsert"

/-- Accumulator of the classification loop in cachePullRequests: the
prsToDelete and prsToUpsert arrays plus the debug log output. -/
structure ClassifyAcc where
  prsToDelete : List IPullRequest
  prsToUpsert : List IPullRequest
  logs : List String
  deriving DecidableEq

/-- One iteration of the for-loop of cachePullRequests
(pull-request-store.ts lines 191-255). The repository resolver
(repositoryStore.upsertGitHubRepository) is passed in as an oracle
mapping (endpoint, api descriptor) to the resolved repository record.
fatalError becomes Except.error. -/
def classifyStep (resolve : String → APIRepo → GitHubRepoRec)
    (repository : GitHubRepoRec) (acc : ClassifyAcc) (pr : IAPIPullRequest) :
    Except String ClassifyAcc :=
  match pr.head.repo with
  | none =>
    .ok { acc with logs := acc.logs ++ [skipLogMsg repository pr.number] }
  | some headApiRepo =>
    let headRepo := resolve repository.endpoint headApiRepo
    match headRepo.dbID with
    | none => .error "PR cannot have non-existent repo"
    | some headRepoId =>
      match pr.base.repo with
      | none => .error "PR cannot have a null base repo"
      | some baseApiRepo =>
        let baseGitHubRepo := resolve repository.endpoint baseApiRepo
        match baseGitHubRepo.dbID with
        | none => .error "PR cannot have a null parent database id"
        | some baseRepoId =>
          let dbPr : IPullRequest :=
            { number := pr.number
              title := pr.title
              createdAt := pr.created_at
              updatedAt := pr.updated_at
              head := { ref := pr.head.ref, sha := pr.head.sha, repoId := some headRepoId }
              base := { ref := pr.base.ref, sha := pr.base.sha, repoId := some baseRepoId }
              author := pr.user.login }
          if pr.state = "closed" ∨ pr.state = "merged" then
            .ok { acc with prsToDelete := acc.prsToDelete ++ [dbPr] }
          else
            .ok { acc with prsToUpsert := acc.prsToUpsert ++ [dbPr] }

/-- The classification loop of cachePullRequests run over the fetched
list, threading the accumulator; an error aborts the whole operation
(a thrown fatalError propagates out of the loop). -/
def classifyLoop (resolve : String → APIRepo → GitHubRepoRec)
    (repository : GitHubRepoRec) (acc : ClassifyAcc) :
    List IAPIPullRequest → Except String ClassifyAcc
  | [] => .ok acc
  | pr :: rest =>
    match classifyStep resolve repository acc pr with
    | .error e => .error e
    | .ok acc1 => classifyLoop resolve repository acc1 rest

/-- Result of cachePullRequests: the new cache contents, the
changed/no-change flag it returns, and the log output it produced. -/
structure CacheResult where
  db : PRDatabase
  changed : Bool
  logs : List String
  deriving DecidableEq

/-- The delete-then-upsert transaction of cachePullRequests
(pull-request-store.ts lines 272-282): logs the summary line and applies
both batches to the cache as one atomic step, reporting "changed". -/
def commitResult (db : PRDatabase) (acc : ClassifyAcc) : Except String CacheResult :=
  .ok { db := putPullRequests (deletePullRequests db acc.prsToDelete) acc.prsToUpsert
        changed := true
        logs := acc.logs ++ [foundLogMsg acc.prsToDelete.length acc.prsToUpsert.length] }

/-- PullRequestStore.cachePullRequests (pull-request-store.ts lines
177-283): empty fetch reports no change; otherwise classify every
fetched pull request; when exactly one record would be upserted and none
deleted, compare it with the previously persisted record of the same
number and report no change if structurally identical; otherwise commit
the delete-then-upsert transaction and report changed. -/
def cachePullRequests (db : PRDatabase)
    (pullRequestsFromAPI : List IAPIPullRequest)
    (repository : GitHubRepoRec)
    (resolve : String → APIRepo → GitHubRepoRec) : Except String CacheResult :=
  if pullRequestsFromAPI.length = 0 then
    .ok { db := db, changed := false, logs := [] }
  else
    match classifyLoop resolve repository ⟨[], [], []⟩ pullRequestsFromAPI with
    | .error e => .error e
    | .ok acc =>
      match acc.prsToDelete, acc.prsToUpsert with
      | [], [cur] =>
        match getPullRequest db cur.number with
        | some prev =>
          if structuralEquals cur prev then
            .ok { db := db, changed := false, logs := acc.logs }
          else
            commitResult db acc
        | none => commitResult db acc
      | _, _ => commitResult db acc

/-- A PullRequestRef model: branch name, commit sha and the owning
repository, which may be null when the source fork was deleted. -/
structure PullRequestRef where
  ref : String
  sha : String
  gitHubRepository : Option GitHubRepoRec
  deriving DecidableEq

/-- A PullRequest model as materialized by getAll: creation timestamp,
title, repository-scoped number, head/base refs and author login. -/
structure PullRequest where
  created : String
  title : String
  number : Nat
  head : PullRequestRef
  base : PullRequestRef
  author : String
  deriving DecidableEq

/-- One iteration of the for-loop of getAll (pull-request-store.ts lines
102-122): resolve the head repository only when the stored head repo id
is truthy (a null or zero id yields a null head repository), resolve the
base repository unconditionally, and fail fatally when the base lookup
comes back null. The lookup oracle stands for the memoized
repositoryStore.findGitHubRepositoryByID. -/
def getAllStep (lookup : Nat → Option GitHubRepoRec)
    (result : List PullRequest) (record : IPullRequest) :
    Except String (List PullRequest) :=
  let headRepository : Option GitHubRepoRec :=
    match record.head.repoId with
    | some id => if id == 0 then none else lookup id
    | none => none
  let baseRepository : Option GitHubRepoRec :=
    match record.base.repoId with
    | some id => lookup id
    | none => none
  match baseRepository with
  | none => .error "base repository cannot be null"
  | some baseRepo =>
    .ok (result ++
      [{ created := record.createdAt
         title := record.title
         number := record.number
         head := { ref := record.head.ref, sha := record.head.sha,
                   gitHubRepository := headRepository }
         base := { ref := record.base.ref, sha := record.base.sha,
                   gitHubRepository := some baseRepo }
         author := record.author }])

/-- Loop of getAll over the records read from the cache. -/
def getAllLoop (lookup : Nat → Option GitHubRepoRec)
    (result : List PullRequest) :
    List IPullRequest → Except String (List PullRequest)
  | [] => .ok result
  | record :: rest =>
    match getAllStep lookup result record with
    | .error e => .error e
    | .ok result1 => getAllLoop lookup result1 rest

/-- PullRequestStore.getAll (pull-request-store.ts lines 80-131): fails
fatally when the repository has no database id, otherwise materializes a
PullRequest from every cached record and returns the list reversed. The
cache read getAllPullRequestsInRepository is, in the single-repository
model, the whole database list. -/
def getAll (repository : GitHubRepoRec) (db : PRDatabase)
    (lookup : Nat → Option GitHubRepoRec) :
    Except String (List PullRequest) :=
  match repository.dbID with
  | none => .error "Cannot fetch PRs for repository, no dbId"
  | some _ =>
    match getAllLoop lookup [] db with
    | .error e => .error e
    | .ok result => .ok result.reverse

/-- The per-count update functions of the store
(pull-request-store.ts lines 15-16). The counter value is an integer. -/
def Decrement (n : Int) : Int := n - 1

/-- Increment companion of Decrement (pull-request-store.ts line 16). -/
def Increment (n : Int) : Int := n + 1

/-- Lookup in the activeFetchCountPerRepository map with the get-or-zero
default the store uses (map.get(id) or-else 0). -/
def mapGet (m : List (Nat × Int)) (k : Nat) : Int :=
  match List.find? (fun e => e.fst == k) m with
  | some e => e.snd
  | none => 0

/-- Map.set on the activeFetchCountPerRepository map. -/
def mapSet (m : List (Nat × Int)) (k : Nat) (v : Int) : List (Nat × Int) :=
  (k, v) :: List.filter (fun e => !(e.fst == k)) m

/-- Mutable state owned by one PullRequestStore, for one repository:
the persistent pull-request cache and the per-repository in-flight
fetch-count map. -/
structure StoreState where
  db : PRDatabase
  counts : List (Nat × Int)
  deriving DecidableEq

/-- Kinds of pull-request list queries the store can issue against the
hosting API. -/
inductive QueryKind
  | openPRs
  | updatedSince (t : Nat)
  deriving DecidableEq

/-- Observable events emitted during a refresh: store update
notifications, the API query issued, warnings from the catch block, and
the forked-remote pruning pass. -/
inductive Event
  | emitUpdate (repository : GitHubRepoRec)
  | apiQuery (q : QueryKind)
  | warn (msg : String) (err : String)
  | pruneForkedRemotes
  deriving DecidableEq

/-- PullRequestStore.updateActiveFetchCount (pull-request-store.ts lines
155-168): unwrap the repository database id (throwing when absent),
apply the update function to the current count (default 0), store the
new count and emit an update notification. -/
def updateActiveFetchCount (s : StoreState) (repository : GitHubRepoRec)
    (update : Int → Int) : Except String (StoreState × List Event) :=
  match repository.dbID with
  | none => .error "Cannot fetch PRs for a repository which is not in the database"
  | some repoDbId =>
    let currentCount := mapGet s.counts repoDbId
    let newCount := update currentCount
    .ok ({ s with counts := mapSet s.counts repoDbId newCount },
         [.emitUpdate repository])

/-- PullRequestStore.isFetchingPullRequests (pull-request-store.ts lines
69-77): unwrap the repository database id (throwing when absent) and
report whether the current count is greater than zero. -/
def isFetchingPullRequests (counts : List (Nat × Int))
    (repository : GitHubRepoRec) : Except String Bool :=
  match repository.dbID with
  | none => .error "Cannot fetch PRs for a repository which is not in the database"
  | some repoDbId =>
    .ok (decide (mapGet counts repoDbId > 0))

/-- A Repository as passed to refreshPullRequests: its name and its
nullable associated GitHubRepository. -/
structure Repository where
  name : String
  gitHubRepository : Option GitHubRepoRec
  deriving DecidableEq

/-- External effects of one refreshPullRequests call, fixed up front:
the result of the last-updated read, the result of whichever API fetch
is issued, the repository resolver, the repository-by-id lookup used by
getAll, and the outcome of the forked-remote pruning pass. An error
value models the corresponding awaited step throwing. -/
structure RefreshOracles where
  getLastUpdated : Except String (Option Nat)
  fetchUpdatedPullRequests : Nat → Except String (List IAPIPullRequest)
  fetchPullRequests : Except String (List IAPIPullRequest)
  resolve : String → APIRepo → GitHubRepoRec
  findGitHubRepositoryByID : Nat → Option GitHubRepoRec
  pruneOutcome : Except String Unit

/-- The fetch call refreshPullRequests issues (pull-request-store.ts
lines 52-54): the incremental updated-since query when a last-updated
timestamp exists, otherwise the list-open-pull-requests query. -/
def chosenFetch (o : RefreshOracles) (lastUpdatedAt : Option Nat) :
    Except String (List IAPIPullRequest) :=
  match lastUpdatedAt with
  | some t => o.fetchUpdatedPullRequests t
  | none => o.fetchPullRequests

/-- The query-issued event matching chosenFetch. -/
def chosenQuery (lastUpdatedAt : Option Nat) : Event :=
  match lastUpdatedAt with
  | some t => .apiQuery (.updatedSince t)
  | none => .apiQuery .openPRs

/-- Body of the try block of refreshPullRequests (pull-request-store.ts
lines 39-60), run against the state after the increment: issue the
query chosen from the last-updated timestamp, reconcile the result into
the cache, and on a reported change read the cache back, prune forked
remotes and emit an update. Returns the state, the events and the
exception caught by the catch block, if any. -/
def refreshTryBody (s1 : StoreState) (githubRepo : GitHubRepoRec)
    (o : RefreshOracles) (lastUpdatedAt : Option Nat) :
    StoreState × List Event × Option String :=
  match chosenFetch o lastUpdatedAt with
  | .error e => (s1, [chosenQuery lastUpdatedAt], some e)
  | .ok apiResult =>
    match cachePullRequests s1.db apiResult githubRepo o.resolve with
    | .error e => (s1, [chosenQuery lastUpdatedAt], some e)
    | .ok cres =>
      if cres.changed then
        match getAll githubRepo cres.db o.findGitHubRepositoryByID with
        | .error e => ({ s1 with db := cres.db }, [chosenQuery lastUpdatedAt], some e)
        | .ok _prs =>
          match o.pruneOutcome with
          | .error e =>
            ({ s1 with db := cres.db },
             [chosenQuery lastUpdatedAt, .pruneForkedRemotes], some e)
          | .ok _ =>
            ({ s1 with db := cres.db },
             [chosenQuery lastUpdatedAt, .pruneForkedRemotes,
              .emitUpdate githubRepo], none)
      else
        ({ s1 with db := cres.db }, [chosenQuery lastUpdatedAt], none)

/-- PullRequestStore.refreshPullRequests (pull-request-store.ts lines
30-66): unwrap the GitHub repository (throwing when absent), increment
the fetch-activity counter, read the last-updated timestamp (awaited
outside the try block, so a rejection there propagates without running
the finally clause), then run the try body; a caught exception logs a
warning; the finally clause decrements the counter. The third component
is ok for a completed call and error for an uncaught exception. -/
def refreshPullRequests (s : StoreState) (repository : Repository)
    (o : RefreshOracles) : StoreState × List Event × Except String Unit :=
  match repository.gitHubRepository with
  | none => (s, [], .error "Can only refresh pull requests for GitHub repositories")
  | some githubRepo =>
    match updateActiveFetchCount s githubRepo Increment with
    | .error e => (s, [], .error e)
    | .ok (s1, evInc) =>
      match o.getLastUpdated with
      | .error e => (s1, evInc, .error e)
      | .ok lastUpdatedAt =>
        match refreshTryBody s1 githubRepo o lastUpdatedAt with
        | (s2, evTry, caught) =>
          let evCatch : List Event :=
            match caught with
            | some e =>
              [.warn ("Error refreshing pull requests for " ++ repository.name) e]
            | none => []
          match updateActiveFetchCount s2 githubRepo Decrement with
          | .error e => (s2, evInc ++ evTry ++ evCatch, .error e)
          | .ok (s3, evDec) =>
            (s3, evInc ++ evTry ++ evCatch ++ evDec, .ok ())

/-- Phase of one in-flight refreshPullRequests call with respect to the
fetch-activity counter: before its increment, after its increment but
before its decrement, or finished. -/
inductive Phase
  | pre
  | active
  | done
  deriving DecidableEq

/-- One in-flight refreshPullRequests call: the database id of the
repository it refreshes and the phase it has reached. -/
structure RefreshTask where
  repoDbId : Nat
  phase : Phase
  deriving DecidableEq

/-- State of the fetch-activity tracker together with the set of
in-flight refresh calls; refreshes for distinct repositories may be in
flight simultaneously, each touching only its own counter entry. -/
structure TrackerState where
  counts : List (Nat × Int)
  tasks : List RefreshTask
  deriving DecidableEq

/-- Interleaving semantics of refreshPullRequests calls as they affect
the fetch-activity counter, one transition per suspension point of the
code: spawn starts a new call; abortPre is a call throwing before its
increment runs (missing GitHub repository or database id, lines 31-35);
incr is the increment (line 35); leak is the last-updated read rejecting
after the increment but outside the try/finally (line 37), so the
finally clause never runs; decr is the finally clause (line 64), reached
on every completion of the try block, successful or caught. -/
inductive TrackerStep : TrackerState → TrackerState → Prop
  | spawn (s : TrackerState) (r : Nat) :
      TrackerStep s ⟨s.counts, ⟨r, .pre⟩ :: s.tasks⟩
  | abortPre (s : TrackerState) (l1 l2 : List RefreshTask) (r : Nat)
      (h : s.tasks = l1 ++ ⟨r, .pre⟩ :: l2) :
      TrackerStep s ⟨s.counts, l1 ++ ⟨r, .done⟩ :: l2⟩
  | incr (s : TrackerState) (l1 l2 : List RefreshTask) (r : Nat)
      (h : s.tasks = l1 ++ ⟨r, .pre⟩ :: l2) :
      TrackerStep s
        ⟨mapSet s.counts r (Increment (mapGet s.counts r)), l1 ++ ⟨r, .active⟩ :: l2⟩
  | leak (s : TrackerState) (l1 l2 : List RefreshTask) (r : Nat)
      (h : s.tasks = l1 ++ ⟨r, .active⟩ :: l2) :
      TrackerStep s ⟨s.counts, l1 ++ ⟨r, .done⟩ :: l2⟩
  | decr (s : TrackerState) (l1 l2 : List RefreshTask) (r : Nat)
      (h : s.tasks = l1 ++ ⟨r, .active⟩ :: l2) :
      TrackerStep s
        ⟨mapSet s.counts r (Decrement (mapGet s.counts r)), l1 ++ ⟨r, .done⟩ :: l2⟩

/-- States of the tracker reachable from the store's initial state (an
empty counter map, no in-flight call). -/
inductive TrackerReachable : TrackerState → Prop
  | start : TrackerReachable ⟨[], []⟩
  | step {s s' : TrackerState} :
      TrackerReachable s → TrackerStep s s' → TrackerReachable s'

/-- Number of in-flight refresh calls for repository r that have run
their increment but not yet their decrement. -/
def activeCount (tasks : List RefreshTask) (r : Nat) : Nat :=
  List.countP (fun t => t.repoDbId == r && t.phase == Phase.active) tasks

/-- Reading a key just written returns the written value. -/
theorem mapGet_mapSet_self (m : List (Nat × Int)) (k : Nat) (v : Int) :
    mapGet (mapSet m k v) k = v := by
  unfold mapGet mapSet
  simp [List.find?_cons]

/-- Lookup by one key is unaffected by filtering out entries of another
key. -/
theorem find?_fst_filter_ne (m : List (Nat × Int)) (k k' : Nat) (h : k' ≠ k) :
    List.find? (fun e => e.fst == k') (List.filter (fun e => !(e.fst == k)) m)
      = List.find? (fun e => e.fst == k') m := by
  induction m with
  | nil => rfl
  | cons a l ih =>
    by_cases hak : a.fst = k
    · have hak' : a.fst ≠ k' := by
        rw [hak]
        exact fun hc => h hc.symm
      simp [List.filter_cons, List.find?_cons, hak, hak', h, Ne.symm h, ih]
    · by_cases hak' : a.fst = k'
      · simp [List.filter_cons, List.find?_cons, hak, hak', h]
      · simp [List.filter_cons, List.find?_cons, hak, hak', h, ih]

/-- Reading another key after a write is unaffected by the write. -/
theorem mapGet_mapSet_ne (m : List (Nat × Int)) (k k' : Nat) (v : Int)
    (h : k' ≠ k) : mapGet (mapSet m k v) k' = mapGet m k' := by
  unfold mapGet mapSet
  have hk : ((k, v).fst == k') = false := by
    simp
    exact fun hc => h hc.symm
  rw [List.find?_cons, hk, find?_fst_filter_ne m k k' h]

/-- Case analysis of one successful classification step: a pull request
with no head repository only appends its diagnostic; one with state
closed or merged appends exactly one record carrying its number to the
delete set; any other appends exactly one record carrying its number to
the upsert set. -/
theorem classifyStep_ok_cases {resolve : String → APIRepo → GitHubRepoRec}
    {repository : GitHubRepoRec} {acc : ClassifyAcc} {pr : IAPIPullRequest}
    {acc' : ClassifyAcc} (h : classifyStep resolve repository acc pr = .ok acc') :
    (pr.head.repo = none ∧ acc'.prsToDelete = acc.prsToDelete ∧
      acc'.prsToUpsert = acc.prsToUpsert ∧
      acc'.logs = acc.logs ++ [skipLogMsg repository pr.number]) ∨
    ((∃ hr, pr.head.repo = some hr) ∧ (pr.state = "closed" ∨ pr.state = "merged") ∧
      (∃ d, d.number = pr.number ∧ acc'.prsToDelete = acc.prsToDelete ++ [d]) ∧
      acc'.prsToUpsert = acc.prsToUpsert ∧ acc'.logs = acc.logs) ∨
    ((∃ hr, pr.head.repo = some hr) ∧ ¬(pr.state = "closed" ∨ pr.state = "merged") ∧
      acc'.prsToDelete = acc.prsToDelete ∧
      (∃ u, u.number = pr.number ∧ acc'.prsToUpsert = acc.prsToUpsert ++ [u]) ∧
      acc'.logs = acc.logs) := by
  rcases hh : pr.head.repo with _ | hr
  · simp only [classifyStep, hh] at h
    left
    cases h
    exact ⟨rfl, rfl, rfl, rfl⟩
  · rcases hd : (resolve repository.endpoint hr).dbID with _ | hid
    · simp only [classifyStep, hh, hd] at h
      exact Except.noConfusion h
    · rcases hb : pr.base.repo with _ | br
      · simp only [classifyStep, hh, hd, hb] at h
        exact Except.noConfusion h
      · rcases hbd : (resolve repository.endpoint br).dbID with _ | bid
        · simp only [classifyStep, hh, hd, hb, hbd] at h
          exact Except.noConfusion h
        · by_cases hst : pr.state = "closed" ∨ pr.state = "merged"
          · simp only [classifyStep, hh, hd, hb, hbd, if_pos hst] at h
            right; left
            cases h
            exact ⟨⟨hr, rfl⟩, hst, ⟨_, rfl, rfl⟩, rfl, rfl⟩
          · simp only [classifyStep, hh, hd, hb, hbd, if_neg hst] at h
            right; right
            cases h
            exact ⟨⟨hr, rfl⟩, hst, rfl, ⟨_, rfl, rfl⟩, rfl⟩

/-- A classification step never fails on a pull request whose head
repository is absent: it only records the diagnostic. -/
theorem classifyStep_null_head {resolve : String → APIRepo → GitHubRepoRec}
    {repository : GitHubRepoRec} (acc : ClassifyAcc) {pr : IAPIPullRequest}
    (hh : pr.head.repo = none) :
    classifyStep resolve repository acc pr
      = .ok { acc with logs := acc.logs ++ [skipLogMsg repository pr.number] } := by
  simp only [classifyStep, hh]

/-- Records already in the delete set survive the rest of the loop. -/
theorem classifyLoop_delete_mono {resolve : String → APIRepo → GitHubRepoRec}
    {repository : GitHubRepoRec} :
    ∀ (l : List IAPIPullRequest) (acc acc' : ClassifyAcc),
    classifyLoop resolve repository acc l = .ok acc' →
    ∀ r ∈ acc.prsToDelete, r ∈ acc'.prsToDelete := by
  intro l
  induction l with
  | nil =>
    intro acc acc' h r hr
    cases h
    exact hr
  | cons p rest ih =>
    intro acc acc' h r hr
    unfold classifyLoop at h
    cases hs : classifyStep resolve repository acc p with
    | error e =>
      rw [hs] at h
      exact Except.noConfusion h
    | ok acc1 =>
      rw [hs] at h
      rcases classifyStep_ok_cases hs with ⟨_, hd, _, _⟩ |
        ⟨_, _, ⟨d, _, hd⟩, _, _⟩ | ⟨_, _, hd, _, _⟩
      · exact ih acc1 acc' h r (by rw [hd]; exact hr)
      · exact ih acc1 acc' h r (by rw [hd]; exact List.mem_append.mpr (Or.inl hr))
      · exact ih acc1 acc' h r (by rw [hd]; exact hr)

/-- Log entries already recorded survive the rest of the loop. -/
theorem classifyLoop_logs_mono {resolve : String → APIRepo → GitHubRepoRec}
    {repository : GitHubRepoRec} :
    ∀ (l : List IAPIPullRequest) (acc acc' : ClassifyAcc),
    classifyLoop resolve repository acc l = .ok acc' →
    ∀ m ∈ acc.logs, m ∈ acc'.logs := by
  intro l
  induction l with
  | nil =>
    intro acc acc' h m hm
    cases h
    exact hm
  | cons p rest ih =>
    intro acc acc' h m hm
    unfold classifyLoop at h
    cases hs : classifyStep resolve repository acc p with
    | error e =>
      rw [hs] at h
      exact Except.noConfusion h
    | ok acc1 =>
      rw [hs] at h
      rcases classifyStep_ok_cases hs with ⟨_, _, _, hl⟩ |
        ⟨_, _, _, _, hl⟩ | ⟨_, _, _, _, hl⟩
      · exact ih acc1 acc' h m (by rw [hl]; exact List.mem_append.mpr (Or.inl hm))
      · exact ih acc1 acc' h m (by rw [hl]; exact hm)
      · exact ih acc1 acc' h m (by rw [hl]; exact hm)

/-- Provenance of the upsert set: every record the loop puts there comes
from a fetched pull request with a head repository whose state is
neither closed nor merged, and carries that pull request's number. -/
theorem classifyLoop_upsert_from {resolve : String → APIRepo → GitHubRepoRec}
    {repository : GitHubRepoRec} :
    ∀ (l : List IAPIPullRequest) (acc acc' : ClassifyAcc),
    classifyLoop resolve repository acc l = .ok acc' →
    ∀ r ∈ acc'.prsToUpsert, r ∈ acc.prsToUpsert ∨
      ∃ p ∈ l, (∃ hr, p.head.repo = some hr) ∧
        ¬(p.state = "closed" ∨ p.state = "merged") ∧ r.number = p.number := by
  intro l
  induction l with
  | nil =>
    intro acc acc' h r hr
    cases h
    exact Or.inl hr
  | cons p rest ih =>
    intro acc acc' h r hr
    unfold classifyLoop at h
    cases hs : classifyStep resolve repository acc p with
    | error e =>
      rw [hs] at h
      exact Except.noConfusion h
    | ok acc1 =>
      rw [hs] at h
      have step := classifyStep_ok_cases hs
      rcases ih acc1 acc' h r hr with h1 | ⟨q, hq, hqh, hqs, hqn⟩
      · rcases step with ⟨_, _, hu, _⟩ | ⟨_, _, _, hu, _⟩ |
          ⟨hhead, hst, _, ⟨u, hun, hu⟩, _⟩
        · exact Or.inl (by rw [hu] at h1; exact h1)
        · exact Or.inl (by rw [hu] at h1; exact h1)
        · rw [hu] at h1
          rcases List.mem_append.mp h1 with h2 | h2
          · exact Or.inl h2
          · rcases List.mem_singleton.mp h2 with rfl
            exact Or.inr ⟨p, List.mem_cons_self p rest, hhead, hst, hun⟩
      · exact Or.inr ⟨q, List.mem_cons_of_mem p hq, hqh, hqs, hqn⟩

/-- Provenance of the delete set: every record the loop puts there comes
from a fetched pull request with a head repository whose state is closed
or merged, and carries that pull request's number. -/
theorem classifyLoop_delete_from {resolve : String → APIRepo → GitHubRepoRec}
    {repository : GitHubRepoRec} :
    ∀ (l : List IAPIPullRequest) (acc acc' : ClassifyAcc),
    classifyLoop resolve repository acc l = .ok acc' →
    ∀ r ∈ acc'.prsToDelete, r ∈ acc.prsToDelete ∨
      ∃ p ∈ l, (∃ hr, p.head.repo = some hr) ∧
        (p.state = "closed" ∨ p.state = "merged") ∧ r.number = p.number := by
  intro l
  induction l with
  | nil =>
    intro acc acc' h r hr
    cases h
    exact Or.inl hr
  | cons p rest ih =>
    intro acc acc' h r hr
    unfold classifyLoop at h
    cases hs : classifyStep resolve repository acc p with
    | error e =>
      rw [hs] at h
      exact Except.noConfusion h
    | ok acc1 =>
      rw [hs] at h
      have step := classifyStep_ok_cases hs
      rcases ih acc1 acc' h r hr with h1 | ⟨q, hq, hqh, hqs, hqn⟩
      · rcases step with ⟨_, hd, _, _⟩ |
          ⟨hhead, hst, ⟨d, hdn, hd⟩, _, _⟩ | ⟨_, _, hd, _, _⟩
        · exact Or.inl (by rw [hd] at h1; exact h1)
        · rw [hd] at h1
          rcases List.mem_append.mp h1 with h2 | h2
          · exact Or.inl h2
          · rcases List.mem_singleton.mp h2 with rfl
            exact Or.inr ⟨p, List.mem_cons_self p rest, hhead, hst, hdn⟩
        · exact Or.inl (by rw [hd] at h1; exact h1)
      · exact Or.inr ⟨q, List.mem_cons_of_mem p hq, hqh, hqs, hqn⟩

/-- Completeness of the delete set: every fetched pull request with a
head repository and state closed or merged contributes a record of its
number to the delete set. -/
theorem classifyLoop_delete_complete {resolve : String → APIRepo → GitHubRepoRec}
    {repository : GitHubRepoRec} :
    ∀ (l : List IAPIPullRequest) (acc acc' : ClassifyAcc) (p : IAPIPullRequest)
      (hr : APIRepo),
    classifyLoop resolve repository acc l = .ok acc' → p ∈ l →
    p.head.repo = some hr → (p.state = "closed" ∨ p.state = "merged") →
    ∃ r ∈ acc'.prsToDelete, r.number = p.number := by
  intro l
  induction l with
  | nil =>
    intro acc acc' p hr _ hp
    exact absurd hp (List.not_mem_nil p)
  | cons q rest ih =>
    intro acc acc' p hr h hp hhead hst
    unfold classifyLoop at h
    cases hs : classifyStep resolve repository acc q with
    | error e =>
      rw [hs] at h
      exact Except.noConfusion h
    | ok acc1 =>
      rw [hs] at h
      rcases List.mem_cons.mp hp with rfl | hp1
      · rcases classifyStep_ok_cases hs with ⟨hnone, _, _, _⟩ |
          ⟨_, _, ⟨d, hdn, hd⟩, _, _⟩ | ⟨_, hopen, _, _, _⟩
        · rw [hhead] at hnone
          exact Option.noConfusion hnone
        · refine ⟨d, ?_, hdn⟩
          exact classifyLoop_delete_mono rest acc1 acc' h d
            (by rw [hd]; exact List.mem_append.mpr (Or.inr (List.mem_singleton.mpr rfl)))
        · exact absurd hst hopen
      · exact ih acc1 acc' p hr h hp1 hhead hst

/-- Completeness of the diagnostics: every fetched pull request without
a head repository contributes its skip diagnostic to the log output. -/
theorem classifyLoop_log_complete {resolve : String → APIRepo → GitHubRepoRec}
    {repository : GitHubRepoRec} :
    ∀ (l : List IAPIPullRequest) (acc acc' : ClassifyAcc) (p : IAPIPullRequest),
    classifyLoop resolve repository acc l = .ok acc' → p ∈ l →
    p.head.repo = none → skipLogMsg repository p.number ∈ acc'.logs := by
  intro l
  induction l with
  | nil =>
    intro acc acc' p _ hp
    exact absurd hp (List.not_mem_nil p)
  | cons q rest ih =>
    intro acc acc' p h hp hhead
    unfold classifyLoop at h
    cases hs : classifyStep resolve repository acc q with
    | error e =>
      rw [hs] at h
      exact Except.noConfusion h
    | ok acc1 =>
      rw [hs] at h
      rcases List.mem_cons.mp hp with rfl | hp1
      · rcases classifyStep_ok_cases hs with ⟨_, _, _, hl⟩ |
          ⟨⟨hr, hsome⟩, _, _, _, _⟩ | ⟨⟨hr, hsome⟩, _, _, _, _⟩
        · refine classifyLoop_logs_mono rest acc1 acc' h _ ?_
          rw [hl]
          exact List.mem_append.mpr (Or.inr (List.mem_singleton.mpr rfl))
        · rw [hhead] at hsome
          exact Option.noConfusion hsome
        · rw [hhead] at hsome
          exact Option.noConfusion hsome
      · exact ih acc1 acc' p h hp1 hhead

/-- A classification step fails on any pull request that has a head
repository but whose base repository is null or resolves without a
database identifier (the thrown fatalError). -/
theorem classifyStep_error_of_bad_base {resolve : String → APIRepo → GitHubRepoRec}
    {repository : GitHubRepoRec} {pr : IAPIPullRequest} {hr : APIRepo}
    (hh : pr.head.repo = some hr)
    (hb : pr.base.repo = none ∨
      ∃ br, pr.base.repo = some br ∧ (resolve repository.endpoint br).dbID = none) :
    ∀ acc, ∃ e, classifyStep resolve repository acc pr = .error e := by
  intro acc
  rcases hd : (resolve repository.endpoint hr).dbID with _ | hid
  · exact ⟨"PR cannot have non-existent repo", by simp only [classifyStep, hh, hd]⟩
  · rcases hb with hb | ⟨br, hb, hbd⟩
    · exact ⟨"PR cannot have a null base repo", by simp only [classifyStep, hh, hd, hb]⟩
    · exact ⟨"PR cannot have a null parent database id",
        by simp only [classifyStep, hh, hd, hb, hbd]⟩

/-- The loop fails whenever it contains a pull request on which every
classification step fails. -/
theorem classifyLoop_error_of_mem {resolve : String → APIRepo → GitHubRepoRec}
    {repository : GitHubRepoRec} :
    ∀ (l : List IAPIPullRequest) (acc : ClassifyAcc) (p : IAPIPullRequest),
    p ∈ l → (∀ acc1, ∃ e, classifyStep resolve repository acc1 p = .error e) →
    ∃ e, classifyLoop resolve repository acc l = .error e := by
  intro l
  induction l with
  | nil =>
    intro acc p hp
    exact absurd hp (List.not_mem_nil p)
  | cons q rest ih =>
    intro acc p hp hstep
    cases hs : classifyStep resolve repository acc q with
    | error e =>
      exact ⟨e, by unfold classifyLoop; rw [hs]⟩
    | ok acc1 =>
      rcases List.mem_cons.mp hp with rfl | hp1
      · rcases hstep acc with ⟨e, he⟩
        rw [hs] at he
        exact Except.noConfusion he
      · rcases ih acc1 p hp1 hstep with ⟨e, he⟩
        exact ⟨e, by unfold classifyLoop; rw [hs]; exact he⟩

/-- Membership after a batch upsert comes from the original cache or
from the batch. -/
theorem mem_putPullRequests :
    ∀ (ups : List IPullRequest) (db : PRDatabase) (r : IPullRequest),
    r ∈ putPullRequests db ups → r ∈ db ∨ r ∈ ups := by
  intro ups
  induction ups with
  | nil =>
    intro db r h
    exact Or.inl h
  | cons p rest ih =>
    intro db r h
    have h1 : r ∈ putPullRequests
        (List.filter (fun x => !(x.number == p.number)) db ++ [p]) rest := h
    rcases ih _ r h1 with h2 | h2
    · rcases List.mem_append.mp h2 with h3 | h3
      · exact Or.inl (List.mem_filter.mp h3).1
      · refine Or.inr ?_
        rw [List.mem_singleton.mp h3]
        exact List.mem_cons_self _ _
    · exact Or.inr (List.mem_cons_of_mem p h2)

/-- A number absent from every record of the cache is not found. -/
theorem getPullRequest_eq_none {db : PRDatabase} {n : Nat}
    (h : ∀ r ∈ db, r.number ≠ n) : getPullRequest db n = none := by
  unfold getPullRequest
  rw [List.find?_eq_none]
  intro x hx
  simp only [beq_iff_eq]
  exact h x hx

/-- Materializing one record fails when its base repository id is
absent or looks up to null (the thrown fatalError in getAll). -/
theorem getAllStep_error_of_bad_base {lookup : Nat → Option GitHubRepoRec}
    {rec : IPullRequest} (result : List PullRequest)
    (hb : match rec.base.repoId with
          | some id => lookup id = none
          | none => True) :
    ∃ e, getAllStep lookup result rec = .error e := by
  rcases hid : rec.base.repoId with _ | id
  · exact ⟨"base repository cannot be null", by simp only [getAllStep, hid]⟩
  · simp only [hid] at hb
    exact ⟨"base repository cannot be null", by simp only [getAllStep, hid, hb]⟩

/-- The getAll loop fails whenever some record of the cache has an
unresolvable base repository. -/
theorem getAllLoop_error_of_mem {lookup : Nat → Option GitHubRepoRec} :
    ∀ (l : List IPullRequest) (result : List PullRequest) (rec : IPullRequest),
    rec ∈ l →
    (match rec.base.repoId with
     | some id => lookup id = none
     | none => True) →
    ∃ e, getAllLoop lookup result l = .error e := by
  intro l
  induction l with
  | nil =>
    intro result rec hrec
    exact absurd hrec (List.not_mem_nil rec)
  | cons q rest ih =>
    intro result rec hrec hb
    cases hs : getAllStep lookup result q with
    | error e =>
      exact ⟨e, by unfold getAllLoop; rw [hs]⟩
    | ok result1 =>
      rcases List.mem_cons.mp hrec with rfl | hrec1
      · rcases getAllStep_error_of_bad_base result hb with ⟨e, he⟩
        rw [hs] at he
        exact Except.noConfusion he
      · rcases ih result1 rec hrec1 hb with ⟨e, he⟩
        exact ⟨e, by unfold getAllLoop; rw [hs]; exact he⟩

/-- getAll surfaces an error whenever some cached record has an
unresolvable base repository (and also when the repository itself has
no database id). -/
theorem getAll_error_of_bad_base {repository : GitHubRepoRec} {db : PRDatabase}
    {lookup : Nat → Option GitHubRepoRec} {rec : IPullRequest}
    (hrec : rec ∈ db)
    (hb : match rec.base.repoId with
          | some id => lookup id = none
          | none => True) :
    ∃ e, getAll repository db lookup = .error e := by
  rcases hdb : repository.dbID with _ | id
  · exact ⟨"Cannot fetch PRs for repository, no dbId", by simp only [getAll, hdb]⟩
  · rcases getAllLoop_error_of_mem db [] rec hrec hb with ⟨e, he⟩
    exact ⟨e, by simp only [getAll, hdb, he]⟩

/-- Full case analysis of a successful cachePullRequests call: an empty
fetch reports no change untouched; otherwise the loop succeeded and
either the single-identical-upsert shortcut reported no change, or the
delete-then-upsert transaction committed and reported changed. -/
theorem cachePullRequests_ok_cases {db : PRDatabase}
    {prs : List IAPIPullRequest} {repository : GitHubRepoRec}
    {resolve : String → APIRepo → GitHubRepoRec} {cres : CacheResult}
    (h : cachePullRequests db prs repository resolve = .ok cres) :
    (prs = [] ∧ cres = ⟨db, false, []⟩) ∨
    ∃ acc, classifyLoop resolve repository ⟨[], [], []⟩ prs = .ok acc ∧
      ((∃ cur, acc.prsToDelete = [] ∧ acc.prsToUpsert = [cur] ∧
          getPullRequest db cur.number = some cur ∧ cres = ⟨db, false, acc.logs⟩) ∨
        cres = ⟨putPullRequests (deletePullRequests db acc.prsToDelete) acc.prsToUpsert,
                true,
                acc.logs ++ [foundLogMsg acc.prsToDelete.length acc.prsToUpsert.length]⟩) := by
  unfold cachePullRequests at h
  by_cases hlen : prs.length = 0
  · rw [if_pos hlen] at h
    cases h
    exact Or.inl ⟨List.length_eq_zero.mp hlen, rfl⟩
  · rw [if_neg hlen] at h
    cases hc : classifyLoop resolve repository ⟨[], [], []⟩ prs with
    | error e =>
      rw [hc] at h
      exact Except.noConfusion h
    | ok acc =>
      rw [hc] at h
      refine Or.inr ⟨acc, rfl, ?_⟩
      rcases hdels : acc.prsToDelete with _ | ⟨d, ds⟩
      · rcases hups : acc.prsToUpsert with _ | ⟨cur, curs⟩
        · simp only [hdels, hups, commitResult] at h
          cases h
          exact Or.inr rfl
        · rcases curs with _ | ⟨c2, c2s⟩
          · simp only [hdels, hups] at h
            cases hprev : getPullRequest db cur.number with
            | none =>
              simp only [hprev, commitResult] at h
              cases h
              exact Or.inr (by rw [hdels, hups])
            | some prev =>
              simp only [hprev] at h
              by_cases heq : structuralEquals cur prev = true
              · rw [if_pos heq] at h
                cases h
                unfold structuralEquals at heq
                have hcp : cur = prev := of_decide_eq_true heq
                exact Or.inl ⟨cur, rfl, rfl, by rw [hprev, hcp], rfl⟩
              · rw [if_neg heq] at h
                simp only [commitResult] at h
                cases h
                exact Or.inr (by rw [hdels, hups])
          · simp only [hdels, hups, commitResult] at h
            cases h
            exact Or.inr rfl
      · simp only [hdels, commitResult] at h
        cases h
        exact Or.inr rfl

/-- The try body of a refresh never modifies the fetch-activity
counter map. -/
theorem refreshTryBody_counts (s1 : StoreState) (githubRepo : GitHubRepoRec)
    (o : RefreshOracles) (lastUpdatedAt : Option Nat) :
    (refreshTryBody s1 githubRepo o lastUpdatedAt).fst.counts = s1.counts := by
  unfold refreshTryBody
  split
  · rfl
  · split
    · rfl
    · split
      · split
        · rfl
        · split
          · rfl
          · rfl
      · rfl

/-- Unfolding of a refresh whose repository resolves and whose
last-updated read succeeds: increment, run the try body, log a warning
when it caught an exception, decrement, complete normally. -/
theorem refreshPullRequests_spec (s : StoreState) (repository : Repository)
    (o : RefreshOracles) (gh : GitHubRepoRec) (id : Nat) (lu : Option Nat)
    (hgh : repository.gitHubRepository = some gh) (hid : gh.dbID = some id)
    (hlu : o.getLastUpdated = .ok lu) :
    refreshPullRequests s repository o =
      (let s1 : StoreState := ⟨s.db, mapSet s.counts id (Increment (mapGet s.counts id))⟩
       let t := refreshTryBody s1 gh o lu
       (⟨t.fst.db, mapSet t.fst.counts id (Decrement (mapGet t.fst.counts id))⟩,
        [Event.emitUpdate gh] ++ t.snd.fst
          ++ (match t.snd.snd with
              | some e =>
                [Event.warn ("Error refreshing pull requests for " ++ repository.name) e]
              | none => [])
          ++ [Event.emitUpdate gh],
        Except.ok ())) := by
  simp only [refreshPullRequests, updateActiveFetchCount, hgh, hid, hlu]

/-- The try body leaves the cache untouched unless the reconciliation
succeeded, in which case the cache it leaves behind is exactly the one
the reconciliation produced. -/
theorem refreshTryBody_db (s1 : StoreState) (githubRepo : GitHubRepoRec)
    (o : RefreshOracles) (lastUpdatedAt : Option Nat) :
    (refreshTryBody s1 githubRepo o lastUpdatedAt).fst.db = s1.db ∨
    ∃ l cres, chosenFetch o lastUpdatedAt = .ok l ∧
      cachePullRequests s1.db l githubRepo o.resolve = .ok cres ∧
      (refreshTryBody s1 githubRepo o lastUpdatedAt).fst.db = cres.db := by
  cases hf : chosenFetch o lastUpdatedAt with
  | error e =>
    refine Or.inl ?_
    simp only [refreshTryBody, hf]
  | ok l =>
    cases hc : cachePullRequests s1.db l githubRepo o.resolve with
    | error e =>
      refine Or.inl ?_
      simp only [refreshTryBody, hf, hc]
    | ok cres =>
      refine Or.inr ⟨l, cres, rfl, hc, ?_⟩
      simp only [refreshTryBody, hf, hc]
      split
      · split
        · rfl
        · split
          · rfl
          · rfl
      · rfl

/-- Recognizer of query-issued events. -/
def isApiQueryEvent : Event → Bool
  | .apiQuery _ => true
  | _ => false

/-- The try body records exactly one issued query: the one chosen from
the last-updated timestamp. -/
theorem refreshTryBody_query (s1 : StoreState) (githubRepo : GitHubRepoRec)
    (o : RefreshOracles) (lastUpdatedAt : Option Nat) :
    ((refreshTryBody s1 githubRepo o lastUpdatedAt).snd.fst).filter isApiQueryEvent
      = [chosenQuery lastUpdatedAt] := by
  cases lastUpdatedAt <;>
    · unfold refreshTryBody
      split
      · simp [chosenQuery, isApiQueryEvent]
      · split
        · simp [chosenQuery, isApiQueryEvent]
        · split
          · split
            · simp [chosenQuery, isApiQueryEvent]
            · split
              · simp [chosenQuery, isApiQueryEvent]
              · simp [chosenQuery, isApiQueryEvent]
          · simp [chosenQuery, isApiQueryEvent]

/-- Deleting an empty batch leaves the cache unchanged. -/
theorem deletePullRequests_nil (db : PRDatabase) : deletePullRequests db [] = db := by
  unfold deletePullRequests
  simp

/-- The loop only accumulates diagnostics on a fetch in which every pull
request lacks a head repository. -/
theorem classifyLoop_all_null {resolve : String → APIRepo → GitHubRepoRec}
    {repository : GitHubRepoRec} :
    ∀ (l : List IAPIPullRequest) (acc : ClassifyAcc),
    (∀ pr ∈ l, pr.head.repo = none) →
    classifyLoop resolve repository acc l
      = .ok ⟨acc.prsToDelete, acc.prsToUpsert,
             acc.logs ++ l.map (fun p => skipLogMsg repository p.number)⟩ := by
  intro l
  induction l with
  | nil =>
    intro acc _
    simp [classifyLoop]
  | cons p rest ih =>
    intro acc hnull
    unfold classifyLoop
    simp only [classifyStep_null_head acc (hnull p (List.mem_cons_self p rest)),
      ih { acc with logs := acc.logs ++ [skipLogMsg repository p.number] }
        (fun q hq => hnull q (List.mem_cons_of_mem p hq))]
    simp

/-- On a non-empty fetch in which every pull request lacks a head
repository, cachePullRequests commits an empty transaction, leaves the
cache unchanged and still reports changed. -/
theorem cachePullRequests_all_null {db : PRDatabase}
    {prs : List IAPIPullRequest} {repository : GitHubRepoRec}
    {resolve : String → APIRepo → GitHubRepoRec}
    (hne : prs ≠ []) (hnull : ∀ pr ∈ prs, pr.head.repo = none) :
    cachePullRequests db prs repository resolve
      = .ok ⟨db, true,
             prs.map (fun p => skipLogMsg repository p.number) ++ [foundLogMsg 0 0]⟩ := by
  have hlen : ¬ prs.length = 0 := by
    intro hc
    exact hne (List.length_eq_zero.mp hc)
  unfold cachePullRequests
  rw [if_neg hlen, classifyLoop_all_null prs ⟨[], [], []⟩ hnull]
  simp only [commitResult, deletePullRequests_nil]
  rfl


/-- One interleaving step preserves the tracker invariant: for every
repository, the number of active calls never exceeds its counter. -/
theorem trackerInv_step {s s' : TrackerState} (hstep : TrackerStep s s')
    (hinv : ∀ r, (activeCount s.tasks r : Int) ≤ mapGet s.counts r) :
    ∀ r, (activeCount s'.tasks r : Int) ≤ mapGet s'.counts r := by
  cases hstep with
  | spawn r0 =>
    intro r
    have h := hinv r
    unfold activeCount at h ⊢
    rw [List.countP_cons]
    simpa using h
  | abortPre l1 l2 r0 htasks =>
    intro r
    have h := hinv r
    rw [htasks] at h
    unfold activeCount at h ⊢
    rw [List.countP_append, List.countP_cons] at h ⊢
    simp only [show ((RefreshTask.mk r0 Phase.pre).repoDbId == r
        && (RefreshTask.mk r0 Phase.pre).phase == Phase.active) = false by simp] at h
    simp only [show ((RefreshTask.mk r0 Phase.done).repoDbId == r
        && (RefreshTask.mk r0 Phase.done).phase == Phase.active) = false by simp]
    simpa using h
  | incr l1 l2 r0 htasks =>
    intro r
    have h := hinv r
    rw [htasks] at h
    unfold activeCount at h ⊢
    rw [List.countP_append, List.countP_cons] at h ⊢
    by_cases hr : r = r0
    · rw [hr] at h ⊢
      rw [mapGet_mapSet_self]
      unfold Increment
      simp only [show ((RefreshTask.mk r0 Phase.pre).repoDbId == r0
          && (RefreshTask.mk r0 Phase.pre).phase == Phase.active) = false by simp] at h
      simp only [show ((RefreshTask.mk r0 Phase.active).repoDbId == r0
          && (RefreshTask.mk r0 Phase.active).phase == Phase.active) = true by simp]
      push_cast at h ⊢
      omega
    · rw [mapGet_mapSet_ne _ _ _ _ hr]
      simp only [show ((RefreshTask.mk r0 Phase.pre).repoDbId == r
          && (RefreshTask.mk r0 Phase.pre).phase == Phase.active) = false by
            simp [Ne.symm hr]] at h
      simp only [show ((RefreshTask.mk r0 Phase.active).repoDbId == r
          && (RefreshTask.mk r0 Phase.active).phase == Phase.active) = false by
            simp [Ne.symm hr]]
      simpa using h
  | leak l1 l2 r0 htasks =>
    intro r
    have h := hinv r
    rw [htasks] at h
    unfold activeCount at h ⊢
    rw [List.countP_append, List.countP_cons] at h ⊢
    by_cases hr : r = r0
    · rw [hr] at h ⊢
      simp only [show ((RefreshTask.mk r0 Phase.active).repoDbId == r0
          && (RefreshTask.mk r0 Phase.active).phase == Phase.active) = true by simp] at h
      simp only [show ((RefreshTask.mk r0 Phase.done).repoDbId == r0
          && (RefreshTask.mk r0 Phase.done).phase == Phase.active) = false by simp]
      push_cast at h ⊢
      omega
    · simp only [show ((RefreshTask.mk r0 Phase.active).repoDbId == r
          && (RefreshTask.mk r0 Phase.active).phase == Phase.active) = false by
            simp [Ne.symm hr]] at h
      simp only [show ((RefreshTask.mk r0 Phase.done).repoDbId == r
          && (RefreshTask.mk r0 Phase.done).phase == Phase.active) = false by
            simp [Ne.symm hr]]
      simpa using h
  | decr l1 l2 r0 htasks =>
    intro r
    have h := hinv r
    rw [htasks] at h
    unfold activeCount at h ⊢
    rw [List.countP_append, List.countP_cons] at h ⊢
    by_cases hr : r = r0
    · rw [hr] at h ⊢
      rw [mapGet_mapSet_self]
      unfold Decrement
      simp only [show ((RefreshTask.mk r0 Phase.active).repoDbId == r0
          && (RefreshTask.mk r0 Phase.active).phase == Phase.active) = true by simp] at h
      simp only [show ((RefreshTask.mk r0 Phase.done).repoDbId == r0
          && (RefreshTask.mk r0 Phase.done).phase == Phase.active) = false by simp]
      push_cast at h ⊢
      omega
    · rw [mapGet_mapSet_ne _ _ _ _ hr]
      simp only [show ((RefreshTask.mk r0 Phase.active).repoDbId == r
          && (RefreshTask.mk r0 Phase.active).phase == Phase.active) = false by
            simp [Ne.symm hr]] at h
      simp only [show ((RefreshTask.mk r0 Phase.done).repoDbId == r
          && (RefreshTask.mk r0 Phase.done).phase == Phase.active) = false by
            simp [Ne.symm hr]]
      simpa using h

/-- The tracker invariant holds in every reachable state. -/
theorem trackerInv_reachable {s : TrackerState} (h : TrackerReachable s) :
    ∀ r, (activeCount s.tasks r : Int) ≤ mapGet s.counts r := by
  induction h with
  | start =>
    intro r
    simp [activeCount, mapGet]
  | step _ hstep ih => exact trackerInv_step hstep ih

/-- Concrete repository record used to instantiate theorems. -/
def sampleRepo : GitHubRepoRec :=
  { dbID := some 1
    endpoint := "https://api.github.com"
    fullName := "octo/widgets"
    ownerLogin := "octo"
    name := "widgets" }

/-- Concrete repository resolver used to instantiate theorems: every
descriptor resolves to a record whose database id is the descriptor
identifier. -/
def sampleResolve : String → APIRepo → GitHubRepoRec :=
  fun endpoint a =>
    { dbID := some a.ident
      endpoint := endpoint
      fullName := "octofork/widgets"
      ownerLogin := "octofork"
      name := "widgets" }

/-- Concrete API pull request used to instantiate theorems. -/
def sampleApiPR (state : String) (number : Nat) : IAPIPullRequest :=
  { number := number
    title := "Add frobnicator"
    created_at := "2019-01-01"
    updated_at := "2019-01-02"
    user := { login := "alice" }
    head := { ref := "feature", sha := "abc123", repo := some { ident := 10 } }
    base := { ref := "master", sha := "def456", repo := some { ident := 11 } }
    state := state }

/-- The persisted record that classification produces for sampleApiPR
under sampleResolve. -/
def sampleRecord (number : Nat) : IPullRequest :=
  { number := number
    title := "Add frobnicator"
    createdAt := "2019-01-01"
    updatedAt := "2019-01-02"
    head := { ref := "feature", sha := "abc123", repoId := some 10 }
    base := { ref := "master", sha := "def456", repoId := some 11 }
    author := "alice" }

/-- Concrete API pull request whose source fork was deleted. -/
def nullHeadApiPR : IAPIPullRequest :=
  { number := 1
    title := "Add frobnicator"
    created_at := "2019-01-01"
    updated_at := "2019-01-02"
    user := { login := "alice" }
    head := { ref := "feature", sha := "abc123", repo := none }
    base := { ref := "master", sha := "def456", repo := some { ident := 11 } }
    state := "open" }

/-- C3: for every fetched list that is empty, cachePullRequests reports
no change (returns false) immediately and issues no cache writes: the
cache it returns is the cache it was given. -/
theorem cache_empty_fetch_reports_no_change
    (db : PRDatabase) (repository : GitHubRepoRec)
    (resolve : String → APIRepo → GitHubRepoRec) :
    cachePullRequests db [] repository resolve = .ok ⟨db, false, []⟩ := rfl

/-- C1: when the reconciliation classifies exactly one record to upsert
and none to delete, and that record is structurally identical (equal in
every persisted field) to the previously persisted record of the same
number, cachePullRequests reports no change (returns false) and performs
no cache writes. -/
theorem cache_single_identical_upsert_reports_no_change
    (db : PRDatabase) (prs : List IAPIPullRequest) (repository : GitHubRepoRec)
    (resolve : String → APIRepo → GitHubRepoRec) (acc : ClassifyAcc)
    (cur : IPullRequest)
    (hclass : classifyLoop resolve repository ⟨[], [], []⟩ prs = .ok acc)
    (hdels : acc.prsToDelete = [])
    (hups : acc.prsToUpsert = [cur])
    (hprev : getPullRequest db cur.number = some cur) :
    cachePullRequests db prs repository resolve = .ok ⟨db, false, acc.logs⟩ := by
  cases prs with
  | nil =>
    cases hclass
    exact absurd hups (by simp)
  | cons p rest =>
    unfold cachePullRequests
    rw [if_neg (by simp)]
    rw [hclass]
    simp only [hdels, hups, hprev]
    simp [structuralEquals]

/-- Witness for C1 at a concrete input: a fetch of one open pull request
identical to the cached record of the same number reports no change. -/
theorem cache_single_identical_upsert_reports_no_change_witness :
    cachePullRequests [sampleRecord 1] [sampleApiPR "open" 1] sampleRepo sampleResolve
      = .ok ⟨[sampleRecord 1], false, []⟩ :=
  cache_single_identical_upsert_reports_no_change
    [sampleRecord 1] [sampleApiPR "open" 1] sampleRepo sampleResolve
    ⟨[], [sampleRecord 1], []⟩ (sampleRecord 1)
    (by decide) rfl rfl (by decide)

/-- C2 (amended): whenever the last-updated read succeeds, the increment
of the per-repository fetch-activity counter performed by
refreshPullRequests is matched by the decrement in the finally clause on
every exit path, successful or failed, so the whole counter map is
restored to its prior values. -/
theorem counter_restored_when_timestamp_read_succeeds
    (s : StoreState) (repository : Repository) (o : RefreshOracles)
    (gh : GitHubRepoRec) (id : Nat) (lu : Option Nat) (k : Nat)
    (hgh : repository.gitHubRepository = some gh)
    (hid : gh.dbID = some id)
    (hlu : o.getLastUpdated = .ok lu) :
    mapGet (refreshPullRequests s repository o).fst.counts k = mapGet s.counts k := by
  rw [refreshPullRequests_spec s repository o gh id lu hgh hid hlu]
  simp only []
  rw [refreshTryBody_counts]
  by_cases hk : k = id
  · rw [hk, mapGet_mapSet_self, mapGet_mapSet_self]
    unfold Increment Decrement
    omega
  · rw [mapGet_mapSet_ne _ _ _ _ hk, mapGet_mapSet_ne _ _ _ _ hk]

/-- Witness for the amended C2 at a concrete input: a refresh whose
fetch fails still restores the counter. -/
theorem counter_restored_when_timestamp_read_succeeds_witness :
    mapGet (refreshPullRequests ⟨[], []⟩ ⟨"widgets", some sampleRepo⟩
      ⟨.ok none, fun _ => .ok [], .error "network down", sampleResolve,
       fun _ => some sampleRepo, .ok ()⟩).fst.counts 1
      = mapGet ([] : List (Nat × Int)) 1 :=
  counter_restored_when_timestamp_read_succeeds
    ⟨[], []⟩ ⟨"widgets", some sampleRepo⟩
    ⟨.ok none, fun _ => .ok [], .error "network down", sampleResolve,
     fun _ => some sampleRepo, .ok ()⟩
    sampleRepo 1 none 1 rfl rfl rfl

/-- Oracles of a refresh whose last-updated read rejects. -/
def leakOracles : RefreshOracles :=
  { getLastUpdated := .error "database read failed"
    fetchUpdatedPullRequests := fun _ => .ok []
    fetchPullRequests := .ok []
    resolve := sampleResolve
    findGitHubRepositoryByID := fun _ => some sampleRepo
    pruneOutcome := .ok () }

/-- Counterexample to C2 as stated: when the awaited last-updated read
rejects, the exception propagates after the increment but outside the
try/finally, so the completed (failed) refresh leaves the counter at 1
instead of returning it to 0. -/
theorem counter_leaks_when_timestamp_read_rejects :
    mapGet (refreshPullRequests ⟨[], []⟩ ⟨"widgets", some sampleRepo⟩
      leakOracles).fst.counts 1 = 1
    ∧ (refreshPullRequests ⟨[], []⟩ ⟨"widgets", some sampleRepo⟩
        leakOracles).snd.snd = .error "database read failed" := by
  constructor
  · rfl
  · rfl

/-- C8: a refresh whose repository resolves and whose last-updated read
succeeds issues exactly one query: the open-pull-requests query when no
prior synchronization timestamp exists, and the modified-at-or-after
query with that timestamp when one does. -/
theorem refresh_query_choice
    (s : StoreState) (repository : Repository) (o : RefreshOracles)
    (gh : GitHubRepoRec) (id : Nat) (lu : Option Nat)
    (hgh : repository.gitHubRepository = some gh)
    (hid : gh.dbID = some id)
    (hlu : o.getLastUpdated = .ok lu) :
    (lu = none →
      ((refreshPullRequests s repository o).snd.fst).filter isApiQueryEvent
        = [Event.apiQuery QueryKind.openPRs]) ∧
    (∀ t, lu = some t →
      ((refreshPullRequests s repository o).snd.fst).filter isApiQueryEvent
        = [Event.apiQuery (QueryKind.updatedSince t)]) := by
  have hfilter :
      ((refreshPullRequests s repository o).snd.fst).filter isApiQueryEvent
        = [chosenQuery lu] := by
    rw [refreshPullRequests_spec s repository o gh id lu hgh hid hlu]
    simp only []
    rw [List.filter_append, List.filter_append, List.filter_append]
    rw [refreshTryBody_query]
    cases (refreshTryBody ⟨s.db, mapSet s.counts id (Increment (mapGet s.counts id))⟩
        gh o lu).snd.snd with
    | none => simp [isApiQueryEvent]
    | some e => simp [isApiQueryEvent]
  constructor
  · intro hnone
    rw [hfilter, hnone]
    rfl
  · intro t ht
    rw [hfilter, ht]
    rfl

/-- Oracles of a refresh with no prior timestamp whose fetch returns an
empty list. -/
def emptyFetchOracles : RefreshOracles :=
  { getLastUpdated := .ok none
    fetchUpdatedPullRequests := fun _ => .ok []
    fetchPullRequests := .ok []
    resolve := sampleResolve
    findGitHubRepositoryByID := fun _ => some sampleRepo
    pruneOutcome := .ok () }

/-- Witness for C8 at a concrete input: with no prior timestamp the
issued query is the open-pull-requests query. -/
theorem refresh_query_choice_witness :
    ((refreshPullRequests ⟨[], []⟩ ⟨"widgets", some sampleRepo⟩
        emptyFetchOracles).snd.fst).filter isApiQueryEvent
      = [Event.apiQuery QueryKind.openPRs] :=
  (refresh_query_choice ⟨[], []⟩ ⟨"widgets", some sampleRepo⟩ emptyFetchOracles
    sampleRepo 1 none rfl rfl rfl).1 rfl

/-- C4: every fetched pull request with a head repository and remote
state closed or merged is classified into the delete set and never the
upsert set, and when cachePullRequests completes successfully, no cached
record of its number remains. Numbers are assumed to identify pull
requests uniquely within one fetch, as the hosting API guarantees. -/
theorem closed_or_merged_pr_deleted_and_absent
    (db : PRDatabase) (prs : List IAPIPullRequest) (repository : GitHubRepoRec)
    (resolve : String → APIRepo → GitHubRepoRec) (pr : IAPIPullRequest)
    (hr : APIRepo) (cres : CacheResult)
    (hmem : pr ∈ prs) (hhead : pr.head.repo = some hr)
    (hclosed : pr.state = "closed" ∨ pr.state = "merged")
    (huniq : ∀ p ∈ prs, ∀ q ∈ prs, p.number = q.number → p = q)
    (hok : cachePullRequests db prs repository resolve = .ok cres) :
    ∃ acc, classifyLoop resolve repository ⟨[], [], []⟩ prs = .ok acc ∧
      (∃ r ∈ acc.prsToDelete, r.number = pr.number) ∧
      (∀ r ∈ acc.prsToUpsert, r.number ≠ pr.number) ∧
      getPullRequest cres.db pr.number = none := by
  rcases cachePullRequests_ok_cases hok with ⟨hnil, _⟩ | ⟨acc, hclass, hcases⟩
  · rw [hnil] at hmem
    exact absurd hmem (List.not_mem_nil pr)
  · have hdel : ∃ r ∈ acc.prsToDelete, r.number = pr.number :=
      classifyLoop_delete_complete prs _ _ pr hr hclass hmem hhead hclosed
    have hups : ∀ r ∈ acc.prsToUpsert, r.number ≠ pr.number := by
      intro r hrU hnum
      rcases classifyLoop_upsert_from prs _ _ hclass r hrU with h0 | ⟨q, hqmem, _, hqopen, hqnum⟩
      · exact absurd h0 (List.not_mem_nil r)
      · have hqpr : q = pr := huniq q hqmem pr hmem (by rw [← hqnum, hnum])
        rw [hqpr] at hqopen
        exact hqopen hclosed
    rcases hcases with ⟨cur, hd0, _, _, _⟩ | hcommit
    · rcases hdel with ⟨r, hrD, _⟩
      rw [hd0] at hrD
      exact absurd hrD (List.not_mem_nil r)
    · refine ⟨acc, hclass, hdel, hups, ?_⟩
      rw [hcommit]
      apply getPullRequest_eq_none
      intro x hx
      rcases mem_putPullRequests _ _ x hx with hxd | hxu
      · intro hxn
        have hcond := (List.mem_filter.mp hxd).2
        rcases hdel with ⟨d, hdD, hdn⟩
        have hany : acc.prsToDelete.any (fun p => p.number == x.number) = true :=
          List.any_eq_true.mpr ⟨d, hdD, by rw [hdn, hxn]; exact beq_self_eq_true _⟩
        rw [hany] at hcond
        exact Bool.noConfusion hcond
      · exact hups x hxu

/-- Witness for C4 at a concrete input: a fetch of one merged pull
request deletes the cached record of its number. -/
theorem closed_or_merged_pr_deleted_and_absent_witness :
    ∃ acc, classifyLoop sampleResolve sampleRepo ⟨[], [], []⟩ [sampleApiPR "merged" 1]
        = .ok acc ∧
      (∃ r ∈ acc.prsToDelete, r.number = (sampleApiPR "merged" 1).number) ∧
      (∀ r ∈ acc.prsToUpsert, r.number ≠ (sampleApiPR "merged" 1).number) ∧
      getPullRequest (CacheResult.mk [] true [foundLogMsg 1 0]).db
        (sampleApiPR "merged" 1).number = none :=
  closed_or_merged_pr_deleted_and_absent
    [sampleRecord 1] [sampleApiPR "merged" 1] sampleRepo sampleResolve
    (sampleApiPR "merged" 1) ⟨10⟩ ⟨[], true, [foundLogMsg 1 0]⟩
    (by decide) (by decide) (by decide) (by decide) (by decide)

/-- C5: a fetched pull request whose head repository reference is null
is skipped without error: classifying it alone succeeds and produces
nothing but its diagnostic, and in any successful classification of a
fetch containing it (with API-unique numbers), no record of its number
reaches the delete set or the upsert set while its diagnostic reaches
the log. -/
theorem null_head_pr_skipped_with_diagnostic :
    (∀ (resolve : String → APIRepo → GitHubRepoRec) (repository : GitHubRepoRec)
       (pr : IAPIPullRequest),
       pr.head.repo = none →
       classifyLoop resolve repository ⟨[], [], []⟩ [pr]
         = .ok ⟨[], [], [skipLogMsg repository pr.number]⟩) ∧
    (∀ (resolve : String → APIRepo → GitHubRepoRec) (repository : GitHubRepoRec)
       (prs : List IAPIPullRequest) (pr : IAPIPullRequest) (acc : ClassifyAcc),
       pr ∈ prs → pr.head.repo = none →
       (∀ p ∈ prs, ∀ q ∈ prs, p.number = q.number → p = q) →
       classifyLoop resolve repository ⟨[], [], []⟩ prs = .ok acc →
       (∀ r ∈ acc.prsToDelete, r.number ≠ pr.number) ∧
       (∀ r ∈ acc.prsToUpsert, r.number ≠ pr.number) ∧
       skipLogMsg repository pr.number ∈ acc.logs) := by
  constructor
  · intro resolve repository pr hh
    unfold classifyLoop
    rw [classifyStep_null_head _ hh]
    rfl
  · intro resolve repository prs pr acc hmem hh huniq hclass
    refine ⟨?_, ?_, ?_⟩
    · intro r hrD hnum
      rcases classifyLoop_delete_from prs _ _ hclass r hrD with h0 | ⟨q, hqmem, ⟨hq, hqh⟩, _, hqnum⟩
      · exact absurd h0 (List.not_mem_nil r)
      · have hqpr : q = pr := huniq q hqmem pr hmem (by rw [← hqnum, hnum])
        rw [hqpr, hh] at hqh
        exact Option.noConfusion hqh
    · intro r hrU hnum
      rcases classifyLoop_upsert_from prs _ _ hclass r hrU with h0 | ⟨q, hqmem, ⟨hq, hqh⟩, _, hqnum⟩
      · exact absurd h0 (List.not_mem_nil r)
      · have hqpr : q = pr := huniq q hqmem pr hmem (by rw [← hqnum, hnum])
        rw [hqpr, hh] at hqh
        exact Option.noConfusion hqh
    · exact classifyLoop_log_complete prs _ _ pr hclass hmem hh

/-- Witness for C5 at a concrete input: classifying a fetch containing a
fork-deleted pull request records only its diagnostic. -/
theorem null_head_pr_skipped_with_diagnostic_witness :
    classifyLoop sampleResolve sampleRepo ⟨[], [], []⟩ [nullHeadApiPR]
      = .ok ⟨[], [], [skipLogMsg sampleRepo nullHeadApiPR.number]⟩ ∧
    ((∀ r ∈ (ClassifyAcc.mk [] [] [skipLogMsg sampleRepo 1]).prsToDelete,
        r.number ≠ nullHeadApiPR.number) ∧
     (∀ r ∈ (ClassifyAcc.mk [] [] [skipLogMsg sampleRepo 1]).prsToUpsert,
        r.number ≠ nullHeadApiPR.number) ∧
     skipLogMsg sampleRepo nullHeadApiPR.number
       ∈ (ClassifyAcc.mk [] [] [skipLogMsg sampleRepo 1]).logs) :=
  ⟨null_head_pr_skipped_with_diagnostic.1 sampleResolve sampleRepo nullHeadApiPR rfl,
   null_head_pr_skipped_with_diagnostic.2 sampleResolve sampleRepo [nullHeadApiPR]
     nullHeadApiPR ⟨[], [], [skipLogMsg sampleRepo 1]⟩
     (by decide) rfl (by decide) (by decide)⟩

/-- C9: an unresolvable base repository is fatal. Reconciliation fails
outright (no skipping, no partial result) whenever a fetched pull
request with a head repository has a null base repository or a base
repository resolving without a database id; and getAll fails outright
whenever a cached record's base repository lookup returns null. -/
theorem unresolvable_base_is_fatal :
    (∀ (db : PRDatabase) (prs : List IAPIPullRequest)
       (repository : GitHubRepoRec) (resolve : String → APIRepo → GitHubRepoRec)
       (pr : IAPIPullRequest) (hr : APIRepo),
       pr ∈ prs → pr.head.repo = some hr →
       (pr.base.repo = none ∨
         ∃ br, pr.base.repo = some br ∧ (resolve repository.endpoint br).dbID = none) →
       ∃ e, cachePullRequests db prs repository resolve = .error e) ∧
    (∀ (repository : GitHubRepoRec) (db : PRDatabase)
       (lookup : Nat → Option GitHubRepoRec) (rec : IPullRequest),
       rec ∈ db →
       (match rec.base.repoId with
        | some i => lookup i = none
        | none => True) →
       ∃ e, getAll repository db lookup = .error e) := by
  constructor
  · intro db prs repository resolve pr hr hmem hhead hbad
    have hstep := classifyStep_error_of_bad_base hhead hbad
    rcases classifyLoop_error_of_mem prs ⟨[], [], []⟩ pr hmem hstep with ⟨e, he⟩
    have hlen : ¬ prs.length = 0 := by
      intro hc
      rw [List.length_eq_zero.mp hc] at hmem
      exact List.not_mem_nil pr hmem
    exact ⟨e, by simp only [cachePullRequests, if_neg hlen, he]⟩
  · intro repository db lookup rec hmem hb
    exact getAll_error_of_bad_base hmem hb

/-- Concrete API pull request whose base repository is null. -/
def nullBaseApiPR : IAPIPullRequest :=
  { number := 2
    title := "Add frobnicator"
    created_at := "2019-01-01"
    updated_at := "2019-01-02"
    user := { login := "alice" }
    head := { ref := "feature", sha := "abc123", repo := some { ident := 10 } }
    base := { ref := "master", sha := "def456", repo := none }
    state := "open" }

/-- Witness for C9 at concrete inputs: a fetch containing a pull request
with a null base repository makes reconciliation fail, and a cached
record whose base lookup returns null makes getAll fail. -/
theorem unresolvable_base_is_fatal_witness :
    (∃ e, cachePullRequests [] [nullBaseApiPR] sampleRepo sampleResolve = .error e) ∧
    (∃ e, getAll sampleRepo [sampleRecord 1] (fun _ => none) = .error e) :=
  ⟨unresolvable_base_is_fatal.1 [] [nullBaseApiPR] sampleRepo sampleResolve
     nullBaseApiPR ⟨10⟩ (by decide) rfl (Or.inl rfl),
   unresolvable_base_is_fatal.2 sampleRepo [sampleRecord 1] (fun _ => none)
     (sampleRecord 1) (by decide) rfl⟩

/-- C6 (amended): a refresh that fails inside the bracketed try block
always logs a warning; a failure at the fetch or during reconciliation
leaves the pull-request cache exactly as it was; and in every case the
final cache is either the pre-refresh cache or the whole
delete-then-upsert delta applied at once, never a partial update. A
failure after the commit (cache read-back or remote pruning) still logs
the warning but the committed delta remains. -/
theorem failed_refresh_cache_atomicity
    (s : StoreState) (repository : Repository) (o : RefreshOracles)
    (gh : GitHubRepoRec) (id : Nat) (lu : Option Nat)
    (hgh : repository.gitHubRepository = some gh)
    (hid : gh.dbID = some id)
    (hlu : o.getLastUpdated = .ok lu) :
    (∀ e, chosenFetch o lu = .error e →
       (refreshPullRequests s repository o).fst.db = s.db ∧
       Event.warn ("Error refreshing pull requests for " ++ repository.name) e
         ∈ (refreshPullRequests s repository o).snd.fst) ∧
    (∀ l e, chosenFetch o lu = .ok l →
       cachePullRequests s.db l gh o.resolve = .error e →
       (refreshPullRequests s repository o).fst.db = s.db ∧
       Event.warn ("Error refreshing pull requests for " ++ repository.name) e
         ∈ (refreshPullRequests s repository o).snd.fst) ∧
    ((refreshPullRequests s repository o).fst.db = s.db ∨
     ∃ l acc, chosenFetch o lu = .ok l ∧
       classifyLoop o.resolve gh ⟨[], [], []⟩ l = .ok acc ∧
       (refreshPullRequests s repository o).fst.db
         = putPullRequests (deletePullRequests s.db acc.prsToDelete) acc.prsToUpsert) := by
  rw [refreshPullRequests_spec s repository o gh id lu hgh hid hlu]
  simp only []
  refine ⟨?_, ?_, ?_⟩
  · intro e hfe
    constructor
    · simp only [refreshTryBody, hfe]
    · simp only [refreshTryBody, hfe]
      simp [List.mem_append]
  · intro l e hfl hce
    constructor
    · simp only [refreshTryBody, hfl, hce]
    · simp only [refreshTryBody, hfl, hce]
      simp [List.mem_append]
  · rcases refreshTryBody_db ⟨s.db, mapSet s.counts id (Increment (mapGet s.counts id))⟩
        gh o lu with hdb | ⟨l, cres, hfl, hcok, hdb⟩
    · exact Or.inl hdb
    · rcases cachePullRequests_ok_cases hcok with ⟨_, hcres⟩ | ⟨acc, hclass, hcc⟩
      · refine Or.inl ?_
        rw [hdb, hcres]
      · rcases hcc with ⟨cur, _, _, _, hcres⟩ | hcres
        · refine Or.inl ?_
          rw [hdb, hcres]
        · refine Or.inr ⟨l, acc, hfl, hclass, ?_⟩
          rw [hdb, hcres]

/-- Witness for the amended C6 at a concrete input: a refresh whose
fetch fails logs the warning and leaves the cache untouched. -/
theorem failed_refresh_cache_atomicity_witness :
    (refreshPullRequests ⟨[], []⟩ ⟨"widgets", some sampleRepo⟩
      ⟨.ok none, fun _ => .ok [], .error "network down", sampleResolve,
       fun _ => some sampleRepo, .ok ()⟩).fst.db = ([] : PRDatabase) ∧
    Event.warn ("Error refreshing pull requests for " ++ "widgets") "network down"
      ∈ (refreshPullRequests ⟨[], []⟩ ⟨"widgets", some sampleRepo⟩
          ⟨.ok none, fun _ => .ok [], .error "network down", sampleResolve,
           fun _ => some sampleRepo, .ok ()⟩).snd.fst :=
  (failed_refresh_cache_atomicity ⟨[], []⟩ ⟨"widgets", some sampleRepo⟩
    ⟨.ok none, fun _ => .ok [], .error "network down", sampleResolve,
     fun _ => some sampleRepo, .ok ()⟩
    sampleRepo 1 none rfl rfl rfl).1 "network down" rfl

/-- Oracles of a refresh whose commit succeeds and whose remote pruning
pass then fails. -/
def pruneFailOracles : RefreshOracles :=
  { getLastUpdated := .ok none
    fetchUpdatedPullRequests := fun _ => .ok []
    fetchPullRequests := .ok [sampleApiPR "open" 1]
    resolve := sampleResolve
    findGitHubRepositoryByID := fun _ => some sampleRepo
    pruneOutcome := .error "getRemotes failed" }

/-- Counterexample to C6 as stated: a refresh that fails (an exception
during the bracketed operation, caught and logged as a warning) after a
successful commit leaves the cache changed, not exactly as it was before
the refresh. -/
theorem warning_with_changed_cache_after_post_commit_failure :
    Event.warn ("Error refreshing pull requests for " ++ "widgets") "getRemotes failed"
      ∈ (refreshPullRequests ⟨[], []⟩ ⟨"widgets", some sampleRepo⟩
          pruneFailOracles).snd.fst
    ∧ (refreshPullRequests ⟨[], []⟩ ⟨"widgets", some sampleRepo⟩
        pruneFailOracles).fst.db = [sampleRecord 1]
    ∧ [sampleRecord 1] ≠ ([] : PRDatabase) := by
  refine ⟨?_, ?_, ?_⟩
  · decide
  · decide
  · decide

/-- C7: in every reachable state of the fetch-activity tracker under the
interleaving semantics of refresh calls, the per-repository counter is
never negative, and isFetchingPullRequests returns true exactly when the
counter of the queried repository is greater than zero. -/
theorem tracker_counter_nonneg_and_isFetching (s : TrackerState)
    (h : TrackerReachable s) :
    (∀ r, 0 ≤ mapGet s.counts r) ∧
    (∀ (repository : GitHubRepoRec) (id : Nat), repository.dbID = some id →
      (isFetchingPullRequests s.counts repository = .ok true ↔
        0 < mapGet s.counts id)) := by
  constructor
  · intro r
    have hi := trackerInv_reachable h r
    have hnn : (0 : Int) ≤ (activeCount s.tasks r : Int) := Int.ofNat_nonneg _
    exact le_trans hnn hi
  · intro repository id hid
    simp [isFetchingPullRequests, hid]

/-- Witness for C7 at a concrete reachable state: after spawning one
refresh for repository 7 and running its increment, the counter is 1,
nonnegative, and isFetchingPullRequests reports true. -/
theorem tracker_counter_nonneg_and_isFetching_witness :
    (0 : Int) ≤ mapGet [((7 : Nat), (1 : Int))] 3 ∧
    (isFetchingPullRequests [((7 : Nat), (1 : Int))]
        ⟨some 7, "https://api.github.com", "octo/widgets", "octo", "widgets"⟩
      = .ok true ↔ 0 < mapGet [((7 : Nat), (1 : Int))] 7) := by
  have hstate : (TrackerState.mk [((7 : Nat), (1 : Int))] [⟨7, Phase.active⟩])
      = TrackerState.mk (mapSet ([] : List (Nat × Int)) 7
          (Increment (mapGet ([] : List (Nat × Int)) 7)))
          ([] ++ ⟨7, Phase.active⟩ :: []) := by
    decide
  have hreach : TrackerReachable ⟨[((7 : Nat), (1 : Int))], [⟨7, Phase.active⟩]⟩ := by
    rw [hstate]
    exact TrackerReachable.step
      (TrackerReachable.step TrackerReachable.start (TrackerStep.spawn ⟨[], []⟩ 7))
      (TrackerStep.incr ⟨[], [⟨7, Phase.pre⟩]⟩ [] [] 7 rfl)
  have h := tracker_counter_nonneg_and_isFetching _ hreach
  exact ⟨h.1 3,
    h.2 ⟨some 7, "https://api.github.com", "octo/widgets", "octo", "widgets"⟩ 7 rfl⟩

/-- C10: a non-empty fetch in which every pull request lacks a head
repository yields empty delete and upsert sets, yet cachePullRequests
still commits the (empty) transaction and reports changed with the cache
unchanged, so the refresh goes on to prune forked remotes and emit an
update notification even though no cached record was added, modified or
removed. -/
theorem all_null_head_nonempty_reports_changed
    (db : PRDatabase) (counts : List (Nat × Int)) (repository : Repository)
    (gh : GitHubRepoRec) (id : Nat) (o : RefreshOracles) (lu : Option Nat)
    (prs : List IAPIPullRequest) (prList : List PullRequest)
    (hgh : repository.gitHubRepository = some gh)
    (hid : gh.dbID = some id)
    (hlu : o.getLastUpdated = .ok lu)
    (hfetch : chosenFetch o lu = .ok prs)
    (hne : prs ≠ []) (hnull : ∀ pr ∈ prs, pr.head.repo = none)
    (hgetAll : getAll gh db o.findGitHubRepositoryByID = .ok prList)
    (hprune : o.pruneOutcome = .ok ()) :
    cachePullRequests db prs gh o.resolve
      = .ok ⟨db, true, prs.map (fun p => skipLogMsg gh p.number) ++ [foundLogMsg 0 0]⟩ ∧
    (refreshPullRequests ⟨db, counts⟩ repository o).fst.db = db ∧
    Event.pruneForkedRemotes ∈ (refreshPullRequests ⟨db, counts⟩ repository o).snd.fst ∧
    Event.emitUpdate gh ∈ (refreshPullRequests ⟨db, counts⟩ repository o).snd.fst := by
  have hcache : cachePullRequests db prs gh o.resolve
      = .ok ⟨db, true, prs.map (fun p => skipLogMsg gh p.number) ++ [foundLogMsg 0 0]⟩ :=
    cachePullRequests_all_null hne hnull
  refine ⟨hcache, ?_⟩
  rw [refreshPullRequests_spec ⟨db, counts⟩ repository o gh id lu hgh hid hlu]
  simp only []
  simp only [refreshTryBody, hfetch, hcache, hgetAll, hprune]
  refine ⟨rfl, ?_, ?_⟩ <;> simp [List.mem_append]

/-- Oracles of a refresh whose fetch returns one fork-deleted pull
request. -/
def nullHeadFetchOracles : RefreshOracles :=
  { getLastUpdated := .ok none
    fetchUpdatedPullRequests := fun _ => .ok []
    fetchPullRequests := .ok [nullHeadApiPR]
    resolve := sampleResolve
    findGitHubRepositoryByID := fun _ => some sampleRepo
    pruneOutcome := .ok () }

/-- Witness for C10 at a concrete input: a fetch of one fork-deleted
pull request reports changed, leaves the cache unchanged, prunes forked
remotes and emits an update. -/
theorem all_null_head_nonempty_reports_changed_witness :
    cachePullRequests [] [nullHeadApiPR] sampleRepo nullHeadFetchOracles.resolve
      = .ok ⟨[], true,
             [nullHeadApiPR].map (fun p => skipLogMsg sampleRepo p.number)
               ++ [foundLogMsg 0 0]⟩ ∧
    (refreshPullRequests ⟨[], []⟩ ⟨"widgets", some sampleRepo⟩
        nullHeadFetchOracles).fst.db = [] ∧
    Event.pruneForkedRemotes
      ∈ (refreshPullRequests ⟨[], []⟩ ⟨"widgets", some sampleRepo⟩
          nullHeadFetchOracles).snd.fst ∧
    Event.emitUpdate sampleRepo
      ∈ (refreshPullRequests ⟨[], []⟩ ⟨"widgets", some sampleRepo⟩
          nullHeadFetchOracles).snd.fst :=
  all_null_head_nonempty_reports_changed [] [] ⟨"widgets", some sampleRepo⟩
    sampleRepo 1 nullHeadFetchOracles none [nullHeadApiPR] []
    rfl rfl rfl rfl (by decide) (by decide) rfl rfl
